import Mathlib

/-!
Verification of the NasmaMetrics dashboard client
(`src/static/js/dashboard.js`) against its natural-language
specification.  The JavaScript module is shallowly embedded: each
relevant source function becomes an executable Lean definition over an
explicit model of the mutable browser state it touches.  Machine
numbers are modelled as `Int`/`Nat`/`Rat`; JavaScript values that can
be `NaN` or infinite are modelled by the `JSNum` sum type; fallible
parsing returns `Option`.
-/

namespace Dashboard

/-! ## Filter state (`dashboardFilters`, `initFilterControls` apply handler)

The mutable global `dashboardFilters = { start, end }` holds the
current date-range filter; both fields are either `null` or a
non-empty date string taken from an `<input type="date">`.  `none`
models JavaScript `null`. -/

structure DashboardFilters where
  start : Option String
  /-- the source field is named `end`, a reserved word in Lean -/
  end_ : Option String
deriving Repr, DecidableEq

/-- Result of one click of the Apply button (`applyBtn` listener,
dashboard.js lines 58-71): the filter state afterwards, whether a full
metric refresh (`loadDashboardData`) was triggered, and whether the
validation `alert` fired. -/
structure ApplyResult where
  filters : DashboardFilters
  refreshed : Bool
  alerted : Bool
deriving Repr, DecidableEq

/-- JavaScript truthiness of `input.value || null`: the empty string is
falsy, so an empty input becomes `null`. -/
def valueOrNull (s : String) : Option String :=
  if s = "" then none else some s

/-- Lexicographic comparison of character lists by code point, the
order JavaScript uses on strings. -/
def charsLt : List Char → List Char → Bool
  | [], [] => false
  | [], _ :: _ => true
  | _ :: _, [] => false
  | a :: as, b :: bs =>
      if a < b then true else if b < a then false else charsLt as bs

/-- JavaScript `a > b` on strings. -/
def strGt (a b : String) : Bool := charsLt b.data a.data

/-- The Apply button handler (dashboard.js lines 58-71).  Reads the two
inputs, rejects the pair with an alert when both are present and
`startValue > endValue`, otherwise stores the pair into
`dashboardFilters` and triggers `loadDashboardData`. -/
def applyFilters (st : DashboardFilters) (startInput endInput : String) :
    ApplyResult :=
  let startValue := valueOrNull startInput
  let endValue := valueOrNull endInput
  match startValue, endValue with
  | some s, some e =>
      if strGt s e then
        { filters := st, refreshed := false, alerted := true }
      else
        { filters := { start := some s, end_ := some e },
          refreshed := true, alerted := false }
  | _, _ =>
      { filters := { start := startValue, end_ := endValue },
        refreshed := true, alerted := false }

/-! ## Dates and the query string (`formatDateForQuery`, `buildFilterQuery`)

A JavaScript `Date` is a count of milliseconds since the Unix epoch
(UTC).  `setHours` works in local time, so the embedding carries the
local-time offset `tz` (milliseconds east of UTC) as an explicit
parameter: local time of an instant `t` is `t + tz`. -/

def msPerDay : Int := 86400000

/-- Milliseconds elapsed since the most recent local midnight. -/
def localMsOfDay (tz t : Int) : Int := (t + tz) % msPerDay

/-- `date.setHours(0, 0, 0, 0)`: move `t` to the local midnight of its
local calendar day. -/
def setHoursStartOfDay (tz t : Int) : Int := t - localMsOfDay tz t

/-- `date.setHours(23, 59, 59, 999)`: move `t` to the last millisecond
of its local calendar day. -/
def setHoursEndOfDay (tz t : Int) : Int := t - localMsOfDay tz t + (msPerDay - 1)

/-- Days from the civil epoch 1970-01-01 to year `y`, month `m`, day
`d` (proleptic Gregorian calendar, the algorithm used by JavaScript
`Date.UTC`). -/
def daysFromCivil (y : Int) (m d : Nat) : Int :=
  let y2 : Int := if m ≤ 2 then y - 1 else y
  let era : Int := y2 / 400
  let yoe : Int := y2 % 400
  let mp : Int := if 2 < m then (m : Int) - 3 else (m : Int) + 9
  let doy : Int := (153 * mp + 2) / 5 + (d : Int) - 1
  let doe : Int := yoe * 365 + yoe / 4 - yoe / 100 + doy
  era * 146097 + doe - 719468

def isDigit (c : Char) : Bool := '0' ≤ c ∧ c ≤ '9'

def digitVal (c : Char) : Nat := c.toNat - '0'.toNat

def digitsToNat (cs : List Char) : Nat :=
  cs.foldl (fun acc c => 10 * acc + digitVal c) 0

def daysInMonth (y : Int) (m : Nat) : Nat :=
  if m = 2 then
    if y % 4 = 0 ∧ (y % 100 ≠ 0 ∨ y % 400 = 0) then 29 else 28
  else if m = 4 ∨ m = 6 ∨ m = 9 ∨ m = 11 then 30
  else 31

/-- `new Date(value)` for a date-only ISO string `YYYY-MM-DD`: the UTC
midnight of that civil date, as epoch milliseconds; `none` models an
Invalid Date (`getTime()` is `NaN`).  Strings in any other shape are
treated as unparseable in this model. -/
def parseJSDate (s : String) : Option Int :=
  match s.data with
  | [y1, y2, y3, y4, h1, m1, m2, h2, d1, d2] =>
      if isDigit y1 ∧ isDigit y2 ∧ isDigit y3 ∧ isDigit y4 ∧ h1 = '-' ∧
          isDigit m1 ∧ isDigit m2 ∧ h2 = '-' ∧ isDigit d1 ∧ isDigit d2 then
        let y := digitsToNat [y1, y2, y3, y4]
        let m := digitsToNat [m1, m2]
        let d := digitsToNat [d1, d2]
        if 1 ≤ m ∧ m ≤ 12 ∧ 1 ≤ d ∧ d ≤ daysInMonth (y : Int) m then
          some (daysFromCivil (y : Int) m d * msPerDay)
        else none
      else none
  | _ => none

/-- A value appended to the query string: either a raw string passed
through verbatim, or the `toISOString()` serialization of the instant
`t` (serialization itself is external and injective, so the instant
stands for its ISO string). -/
inductive QueryVal where
  | raw (s : String)
  | iso (t : Int)
deriving Repr, DecidableEq

/-- `formatDateForQuery(value, endOfDay)` (dashboard.js lines 95-109):
falsy or unparseable input is returned unchanged; otherwise the parsed
date is normalized to the local start or end of its day and
serialized. -/
def formatDateForQuery (tz : Int) (value : String) (endOfDay : Bool) :
    QueryVal :=
  if value = "" then .raw value
  else
    match parseJSDate value with
    | none => .raw value
    | some t =>
        if endOfDay then .iso (setHoursEndOfDay tz t)
        else .iso (setHoursStartOfDay tz t)

/-- JavaScript truthiness of `dashboardFilters.start` (a string or
`null`). -/
def truthyOpt : Option String → Bool
  | none => false
  | some s => s ≠ ""

/-- `buildFilterQuery()` (dashboard.js lines 83-93), as the list of
query parameters appended to `URLSearchParams`. -/
def buildFilterQuery (tz : Int) (f : DashboardFilters) :
    List (String × QueryVal) :=
  (if truthyOpt f.start then
    [("start_date", formatDateForQuery tz (f.start.getD "") false)]
  else []) ++
  (if truthyOpt f.end_ then
    [("end_date", formatDateForQuery tz (f.end_.getD "") true)]
  else [])

/-! ## Duration formatting (`formatDurationDisplay`)

The argument is the `avg_duration_seconds` field of a metric row: a
JSON number (always finite) or `null`/absent, modelled as `Option ℚ`
(`none` covers `null`/`undefined`, which fail the
`typeof seconds !== "number"` guard; JSON cannot carry `NaN` or
infinities). -/

/-- JavaScript `Math.round`: round half toward positive infinity. -/
def jsMathRound (q : ℚ) : Int := ⌊q + 1 / 2⌋

/-- `Array.prototype.join(" ")`. -/
def joinParts : List String → String
  | [] => ""
  | [p] => p
  | p :: q :: rest => p ++ " " ++ joinParts (q :: rest)

/-- `formatDurationDisplay(seconds)` (dashboard.js lines 158-178). -/
def formatDurationDisplay (seconds : Option ℚ) : String :=
  match seconds with
  | none => "-"
  | some q =>
      if q ≤ 0 then "-"
      else
        let rounded : Nat := (jsMathRound q).toNat
        let hours := rounded / 3600
        let minutes := rounded % 3600 / 60
        let secs := rounded % 60
        let parts : List String :=
          (if hours ≠ 0 then [toString hours ++ "h"] else []) ++
          (if minutes ≠ 0 then [toString minutes ++ "m"] else []) ++
          (if hours = 0 ∧ secs ≠ 0 then [toString secs ++ "s"] else [])
        let joined := joinParts parts
        if joined = "" then toString rounded ++ "s" else joined

/-! ## ISO-week labels (`formatWeekLabel`)

The source formats the computed date with `toLocaleDateString`; locale
rendering is external, so the embedding returns the computed date
itself (as a day count since 1970-01-01) when the period parses, and
the input text otherwise. -/

inductive WeekLabel where
  | text (s : String)
  | date (epochDay : Int)
deriving Repr, DecidableEq

/-- The regex match `^(\d{4})-W(\d{2})$` of `formatWeekLabel`,
returning the two captured numbers. -/
def parseWeekPeriod (s : String) : Option (Nat × Nat) :=
  match s.data with
  | [y1, y2, y3, y4, h, w, n1, n2] =>
      if isDigit y1 ∧ isDigit y2 ∧ isDigit y3 ∧ isDigit y4 ∧ h = '-' ∧
          w = 'W' ∧ isDigit n1 ∧ isDigit n2 then
        some (digitsToNat [y1, y2, y3, y4], digitsToNat [n1, n2])
      else none
  | _ => none

/-- `Date.prototype.getUTCDay` on a date given as days since the epoch:
0 = Sunday … 6 = Saturday (1970-01-01 was a Thursday). -/
def getUTCDay (epochDay : Int) : Nat := ((epochDay + 4) % 7).toNat

/-- `formatWeekLabel(period)` (dashboard.js lines 136-156): anchor on
January 4 of the year, step back to the Monday of that week
(`getUTCDay() || 7`), then advance `(week - 1) * 7` days. -/
def formatWeekLabel (period : String) : WeekLabel :=
  match parseWeekPeriod period with
  | none => .text period
  | some (year, week) =>
      let startDate := daysFromCivil (year : Int) 1 4
      let dayOfWeek : Nat :=
        if getUTCDay startDate = 0 then 7 else getUTCDay startDate
      .date (startDate - (dayOfWeek : Int) + 1 + ((week : Int) - 1) * 7)

/-! ## JavaScript numbers and `parseFloat`

The ease editor reads free-text input values through `parseFloat`,
whose result can be `NaN` or an infinity, so results are modelled by
`JSNum`.  The parser below follows the ECMAScript `parseFloat`
grammar: optional leading whitespace, optional sign, then either an
`Infinity` literal or a decimal literal (longest valid prefix; no
valid prefix gives `NaN`).  A finite decimal is kept exactly as a
rational; a magnitude at or beyond `2 ^ 1024` overflows to an
infinity, matching IEEE-754 double conversion (the embedding does not
model rounding of in-range values, which no theorem here depends
on). -/

inductive JSNum where
  | nan
  | inf
  | negInf
  | num (q : ℚ)
deriving Repr, DecidableEq

def JSNum.isNaN : JSNum → Bool
  | .nan => true
  | _ => false

def JSNum.isFinite : JSNum → Bool
  | .num _ => true
  | _ => false

def isJsSpace (c : Char) : Bool := c = ' ' ∨ c = '\t' ∨ c = '\n' ∨ c = '\r'

/-- Exponent suffix of a decimal literal: `e`/`E`, optional sign,
digits; an incomplete suffix contributes exponent 0. -/
def parseExponent : List Char → Int
  | c :: r =>
      if c = 'e' ∨ c = 'E' then
        let signed : Int × List Char :=
          match r with
          | '+' :: t => (1, t)
          | '-' :: t => (-1, t)
          | _ => (1, r)
        let eds := signed.2.takeWhile isDigit
        if eds = [] then 0 else signed.1 * (digitsToNat eds : Int)
      else 0
  | [] => 0

def doubleOverflow : ℚ := 2 ^ 1024

/-- The numeric value of a parsed decimal literal with the given
integer digits, fraction digits (and fraction length), and exponent,
clamped to an infinity when it exceeds the IEEE-754 double range. -/
def jsNumOfDecimal (neg : Bool) (intDigits fracDigits fracLen : Nat)
    (expo : Int) : JSNum :=
  let mantissa : ℚ := (intDigits : ℚ) + (fracDigits : ℚ) / 10 ^ fracLen
  let magnitude : ℚ := mantissa * 10 ^ expo
  let value : ℚ := if neg then -magnitude else magnitude
  if doubleOverflow ≤ value then .inf
  else if value ≤ -doubleOverflow then .negInf
  else .num value

def parseFloatCore (cs : List Char) (neg : Bool) : JSNum :=
  if cs.take 8 = "Infinity".data then
    if neg then .negInf else .inf
  else
    let intPart := cs.takeWhile isDigit
    let rest := cs.dropWhile isDigit
    let fracRest : List Char × List Char :=
      match rest with
      | '.' :: r => (r.takeWhile isDigit, r.dropWhile isDigit)
      | _ => ([], rest)
    if intPart = [] ∧ fracRest.1 = [] then .nan
    else
      jsNumOfDecimal neg (digitsToNat intPart) (digitsToNat fracRest.1)
        fracRest.1.length (parseExponent fracRest.2)

def parseFloat (s : String) : JSNum :=
  let cs := s.data.dropWhile isJsSpace
  match cs with
  | '+' :: r => parseFloatCore r false
  | '-' :: r => parseFloatCore r true
  | _ => parseFloatCore cs false

/-! ## Ease-comparison editor save (`saveEaseData`)

One editor row is a pair of input elements; `RowInput` carries their
`value` strings.  `saveEaseData` collects both series from the DOM,
filters the rows, issues one POST, and reacts to the response.  The
response is modelled explicitly: a success envelope, a failure
envelope with its `error` string, or a thrown request/parse error. -/

structure RowInput where
  period : String
  value : String
deriving Repr, DecidableEq

structure EaseEntry where
  period : String
  value : JSNum
deriving Repr, DecidableEq

/-- The collection loop of `saveEaseData` (dashboard.js lines
1032-1038 and 1044-1050): for each row, keep it when the period text
is truthy (non-empty) and `parseFloat` of the value text is not
`NaN`. -/
def collectSeries (rows : List RowInput) : List EaseEntry :=
  rows.foldl
    (fun acc r =>
      let v := parseFloat r.value
      if r.period ≠ "" ∧ ¬v.isNaN then acc ++ [⟨r.period, v⟩] else acc)
    []

structure EaseBuffer where
  odoo : List RowInput
  nasma : List RowInput
deriving Repr, DecidableEq

structure EaseSeries where
  odoo : List EaseEntry
  nasma : List EaseEntry
deriving Repr, DecidableEq

inductive SaveResp where
  | thrown
  | envelope (success : Bool) (error : String)
deriving Repr, DecidableEq

/-- Observable outcome of `saveEaseData`: the body submitted in the
single POST, the global `easeData` afterwards, the argument of the
`renderEaseComparisonChart` call if one happened, whether the editor
modal is still open afterwards (it starts open), and the `alert`
message shown. -/
structure SaveOutcome where
  submitted : EaseSeries
  easeData : EaseSeries
  rendered : Option EaseSeries
  editorOpen : Bool
  message : String
deriving Repr, DecidableEq

/-- `saveEaseData()` (dashboard.js lines 1027-1074), as a function of
the editor buffer, the previously committed series, and the response
to the POST. -/
def saveEaseData (buf : EaseBuffer) (current : EaseSeries)
    (resp : SaveResp) : SaveOutcome :=
  let odooData := collectSeries buf.odoo
  let nasmaData := collectSeries buf.nasma
  let sub : EaseSeries := ⟨odooData, nasmaData⟩
  match resp with
  | .envelope true _ =>
      { submitted := sub, easeData := sub, rendered := some sub,
        editorOpen := false,
        message := "Ease comparison data saved successfully!" }
  | .envelope false err =>
      { submitted := sub, easeData := current, rendered := none,
        editorOpen := true,
        message := "Failed to save ease comparison data: " ++ err }
  | .thrown =>
      { submitted := sub, easeData := current, rendered := none,
        editorOpen := true,
        message := "Error saving ease comparison data" }

/-! ## Ease-comparison average (`calcAverage` inside
`renderEaseComparisonChart`)

A series entry is modelled by its `value` field: a `JSNum` or absent
(the reducer reads `entry.value || 0`).  The full `JSNum` domain is
needed because a committed series can carry an infinity: the editor
save keeps a row whose value text overflows `parseFloat` (such as
"1e999") and `renderEaseComparisonChart` is then called with it. -/

/-- `x.toFixed(2)` followed by `parseFloat`: round to two decimal
places, ties toward the larger value, per the ECMAScript `toFixed`
rule. -/
def jsToFixed2 (q : ℚ) : ℚ := (⌊q * 100 + 1 / 2⌋ : ℚ) / 100

/-- JavaScript `+` on numbers: `NaN` propagates, opposite infinities
give `NaN`, an infinity absorbs finite addends, and a finite sum at or
beyond the IEEE-754 double range overflows to an infinity (the same
`2 ^ 1024` clamp used for `parseFloat`). -/
def JSNum.add : JSNum → JSNum → JSNum
  | .nan, _ => .nan
  | _, .nan => .nan
  | .inf, .negInf => .nan
  | .negInf, .inf => .nan
  | .inf, _ => .inf
  | _, .inf => .inf
  | .negInf, _ => .negInf
  | _, .negInf => .negInf
  | .num a, .num b =>
      if doubleOverflow ≤ a + b then .inf
      else if a + b ≤ -doubleOverflow then .negInf
      else .num (a + b)

/-- `entry.value || 0`: an absent value and the falsy numbers (`NaN`
and 0 itself) become the number 0; infinities are truthy and kept. -/
def jsValueOr0 : Option JSNum → JSNum
  | none => .num 0
  | some .nan => .num 0
  | some v => v

/-- `sum / items.length` for a number `sum` and an entry count: `NaN`
and infinities propagate; division by count 0 follows JavaScript
(0/0 = NaN, otherwise a signed infinity), though `calcAverage` guards
that case away. -/
def JSNum.divNat : JSNum → Nat → JSNum
  | .nan, _ => .nan
  | .inf, _ => .inf
  | .negInf, _ => .negInf
  | .num q, n =>
      if n = 0 then
        if q = 0 then .nan else if 0 < q then .inf else .negInf
      else .num (q / n)

/-- `x.toFixed(2)` followed by `parseFloat` on any JS number:
`(Infinity).toFixed(2)` is "Infinity" and parses back to Infinity,
`NaN` gives "NaN" and parses back to `NaN`. -/
def jsToFixed2Num : JSNum → JSNum
  | .num q => .num (jsToFixed2 q)
  | v => v

/-- The reduction `items.reduce((total, entry) => total +
(entry.value || 0), 0)` of `calcAverage`. -/
def jsSumValues (items : List (Option JSNum)) : JSNum :=
  items.foldl (fun total v => total.add (jsValueOr0 v)) (.num 0)

/-- `calcAverage(items)` (dashboard.js lines 492-496). -/
def calcAverage (items : List (Option JSNum)) : JSNum :=
  if items.length = 0 then .num 0
  else jsToFixed2Num ((jsSumValues items).divNat items.length)

/-- The contribution of one entry to the spec's "sum of present
values": a present finite value counts as itself, an absent value
(and, matching the `|| 0` fallback, a present `NaN`) as 0.  Only
meaningful when the JS sum is finite, which rules out present
infinities. -/
def presentValueRat : Option JSNum → ℚ
  | some (.num q) => q
  | _ => 0

/-- The spec's "sum of present values" of a series. -/
def presentSum (items : List (Option JSNum)) : ℚ :=
  (items.map presentValueRat).sum

/-! ## Dashboard refresh cycle (`loadDashboardData`)

`loadDashboardData` (dashboard.js lines 264-367) awaits each metric
endpoint in turn inside a single `try` block.  The embedding maps an
assignment of responses (one per endpoint) to the ordered list of
renderer calls the cycle performs.  A response is a thrown
transport/parse error or an envelope with its `success` flag; payloads
are abstracted to a `Nat` tag, since only their identity matters. -/

inductive Slot where
  | activeUsers
  | requests
  | adoption
  | adoptionByDept
  | logHours
  | requestDurations
  | successRates
  | inactiveEmployees
  | activitiesToday
  | satisfaction
  | easeComparison
deriving Repr, DecidableEq

/-- The endpoints in the order `loadDashboardData` awaits them. -/
def slotOrder : List Slot :=
  [.activeUsers, .requests, .adoption, .adoptionByDept, .logHours,
   .requestDurations, .successRates, .inactiveEmployees,
   .activitiesToday, .satisfaction, .easeComparison]

/-- Whether the endpoint has an `else` branch calling its renderer
with an empty list on a failure envelope (dashboard.js lines 294-295,
303-304, 311-312, 319-320, 327-328, 335-336).  The chart and
single-value endpoints have no such branch: on a failure envelope
nothing is called for them. -/
def hasEmptyFallback : Slot → Bool
  | .adoptionByDept | .logHours | .requestDurations | .successRates
  | .inactiveEmployees | .activitiesToday => true
  | _ => false

inductive Resp where
  | thrown
  | envelope (success : Bool) (payload : Nat)
deriving Repr, DecidableEq

/-- A renderer invocation: with the successful payload, or with the
empty fallback input. -/
inductive RenderInput where
  | data (payload : Nat)
  | empty
deriving Repr, DecidableEq

/-- The renderer calls one awaited endpoint contributes. -/
def stepEffects (f : Slot → Resp) (s : Slot) : List (Slot × RenderInput) :=
  match f s with
  | .thrown => []
  | .envelope true d => [(s, .data d)]
  | .envelope false _ =>
      if hasEmptyFallback s then [(s, .empty)] else []

/-- Sequential body of the `try` block: a thrown await transfers
control to the `catch` (which only logs), abandoning every later
endpoint. -/
def runCycleAux (f : Slot → Resp) : List Slot → List (Slot × RenderInput)
  | [] => []
  | s :: rest =>
      match f s with
      | .thrown => []
      | _ => stepEffects f s ++ runCycleAux f rest

/-- `loadDashboardData()` as the ordered list of renderer calls it
makes under the response assignment `f`. -/
def runCycle (f : Slot → Resp) : List (Slot × RenderInput) :=
  runCycleAux f slotOrder

/-! ## Chart registry (`renderActiveUsersChart`,
`renderPlanningCoverageChart`)

The module-level chart variables and the population of live (created
and not yet destroyed) Chart.js instances are modelled explicitly:
`live` is the list of ids of live instances, each slot variable holds
the id it references (possibly of an already destroyed instance), and
`nextId` numbers the next `new Chart(...)`. -/

structure ChartRegistry where
  live : List Nat
  activeUsersChart : Option Nat
  planningCoverageChart : Option Nat
  nextId : Nat
deriving Repr, DecidableEq

/-- `if (chartVar) { chartVar.destroy(); }`: remove the referenced
instance from the live population. -/
def destroyIfPresent (live : List Nat) : Option Nat → List Nat
  | some h => live.erase h
  | none => live

structure AURow where
  month : String
  active_users : Int
deriving Repr, DecidableEq

/-- `renderActiveUsersChart(data)` (dashboard.js lines 369-424):
destroy the existing chart if present, then unconditionally create a
new one and bind it to the slot variable. -/
def renderActiveUsersChart (reg : ChartRegistry) (data : List AURow) :
    ChartRegistry :=
  let live1 := destroyIfPresent reg.live reg.activeUsersChart
  { live := live1 ++ [reg.nextId],
    activeUsersChart := some reg.nextId,
    planningCoverageChart := reg.planningCoverageChart,
    nextId := reg.nextId + 1 }

inductive CoverageView where
  | monthly
  | weekly
deriving Repr, DecidableEq

structure PCRow where
  period : String
  coverage_pct : Option ℚ
deriving Repr, DecidableEq

structure PlanningCoverageData where
  monthly : List PCRow
  weekly : List PCRow
deriving Repr, DecidableEq

/-- `dataset.slice(-limit)`: the last `n` elements. -/
def lastN (n : Nat) (l : List PCRow) : List PCRow := l.drop (l.length - n)

def coverageDataset (pcd : PlanningCoverageData) : CoverageView → List PCRow
  | .monthly => pcd.monthly
  | .weekly => pcd.weekly

def coverageLimit : CoverageView → Nat
  | .monthly => 12
  | .weekly => 20

/-- The `trimmed` dataset of `renderPlanningCoverageChart`. -/
def trimmedCoverage (pcd : PlanningCoverageData) (view : CoverageView) :
    List PCRow :=
  lastN (coverageLimit view) (coverageDataset pcd view)

/-- `renderPlanningCoverageChart(view)` (dashboard.js lines
1124-1204): destroy the existing chart if present, then return early
when the trimmed dataset is empty (leaving the slot variable pointing
at the destroyed instance), otherwise create a new chart and bind
it. -/
def renderPlanningCoverageChart (reg : ChartRegistry)
    (pcd : PlanningCoverageData) (view : CoverageView) : ChartRegistry :=
  let trimmed := trimmedCoverage pcd view
  let live1 := destroyIfPresent reg.live reg.planningCoverageChart
  if trimmed.isEmpty then
    { live := live1,
      activeUsersChart := reg.activeUsersChart,
      planningCoverageChart := reg.planningCoverageChart,
      nextId := reg.nextId }
  else
    { live := live1 ++ [reg.nextId],
      activeUsersChart := reg.activeUsersChart,
      planningCoverageChart := some reg.nextId,
      nextId := reg.nextId + 1 }

/-- Number of live chart instances currently referenced by the
active-users slot variable. -/
def liveAUHandles (reg : ChartRegistry) : Nat :=
  match reg.activeUsersChart with
  | some h => if h ∈ reg.live then 1 else 0
  | none => 0

/-- Number of live chart instances currently referenced by the
planning-coverage slot variable. -/
def livePCHandles (reg : ChartRegistry) : Nat :=
  match reg.planningCoverageChart with
  | some h => if h ∈ reg.live then 1 else 0
  | none => 0

/-- Registry sanity: live ids are distinct, and all ids ever issued
(live or referenced by a slot variable) are below the id counter. -/
def RegistryWF (reg : ChartRegistry) : Prop :=
  reg.live.Nodup ∧ (∀ h ∈ reg.live, h < reg.nextId) ∧
    (∀ h, reg.activeUsersChart = some h → h < reg.nextId) ∧
    (∀ h, reg.planningCoverageChart = some h → h < reg.nextId)

/-- The local calendar-day index of an instant. -/
def localDayIndex (tz t : Int) : Int := (t + tz) / msPerDay

/-- The rows the save submits for one series, stated as in the spec
(for comparison with the collection loop of `saveEaseData`): filter
the rows by the keep condition, then take each kept row with its
parsed value. -/
def submittedRows (rows : List RowInput) : List EaseEntry :=
  (rows.filter fun r => decide (r.period ≠ "") && !(parseFloat r.value).isNaN).map
    fun r => ⟨r.period, parseFloat r.value⟩

/-- ISO-8601 weekday of an epoch day: 1 = Monday … 7 = Sunday. -/
def isoWeekday (d : Int) : Int := (d + 3) % 7 + 1

/-- The Monday of ISO week `w` of year `y`, stated as in the spec (for
comparison with `formatWeekLabel`): anchor on January 4 -- always in
ISO week 1 -- step back to the Monday of its week, and advance
`w - 1` weeks. -/
def isoWeekMondaySpec (y w : Int) : Int :=
  let jan4 := daysFromCivil y 1 4
  jan4 - (isoWeekday jan4 - 1) + 7 * (w - 1)

lemma parseJSDate_ne_empty {s : String} {t : Int}
    (h : parseJSDate s = some t) : s ≠ "" := by
  intro hs
  subst hs
  rw [show parseJSDate "" = none from rfl] at h
  exact Option.noConfusion h

lemma msPerDay_ne_zero : msPerDay ≠ 0 := by
  simp [msPerDay]

lemma setHoursStart_add_tz (tz ts : Int) :
    setHoursStartOfDay tz ts + tz = msPerDay * ((ts + tz) / msPerDay) := by
  have h := Int.ediv_add_emod (ts + tz) msPerDay
  simp only [setHoursStartOfDay, localMsOfDay]
  omega

lemma setHoursEnd_add_tz (tz ts : Int) :
    setHoursEndOfDay tz ts + tz =
      (msPerDay - 1) + msPerDay * ((ts + tz) / msPerDay) := by
  have h := setHoursStart_add_tz tz ts
  simp only [setHoursEndOfDay, setHoursStartOfDay] at *
  omega

lemma localMs_setHoursStart (tz ts : Int) :
    localMsOfDay tz (setHoursStartOfDay tz ts) = 0 := by
  unfold localMsOfDay
  rw [setHoursStart_add_tz, Int.mul_emod_right]

lemma localMs_setHoursEnd (tz ts : Int) :
    localMsOfDay tz (setHoursEndOfDay tz ts) = msPerDay - 1 := by
  unfold localMsOfDay
  rw [setHoursEnd_add_tz, Int.add_mul_emod_self_left]
  simp [msPerDay]

lemma dayIndex_setHoursStart (tz ts : Int) :
    localDayIndex tz (setHoursStartOfDay tz ts) = localDayIndex tz ts := by
  unfold localDayIndex
  rw [setHoursStart_add_tz, Int.mul_ediv_cancel_left _ msPerDay_ne_zero]

lemma dayIndex_setHoursEnd (tz ts : Int) :
    localDayIndex tz (setHoursEndOfDay tz ts) = localDayIndex tz ts := by
  unfold localDayIndex
  rw [setHoursEnd_add_tz, Int.add_mul_ediv_left _ _ msPerDay_ne_zero]
  simp [msPerDay]

/-- C2: when both date inputs are present and start > end, the Apply
action leaves the filter state unchanged, alerts, and triggers no
refresh; for every other pair it stores the pair and triggers a full
refresh. -/
theorem applyFilters_validation (st : DashboardFilters) (s e : String) :
    (s ≠ "" → e ≠ "" → strGt s e = true →
      applyFilters st s e = ⟨st, false, true⟩) ∧
    (¬(s ≠ "" ∧ e ≠ "" ∧ strGt s e = true) →
      applyFilters st s e = ⟨⟨valueOrNull s, valueOrNull e⟩, true, false⟩) := by
  constructor
  · intro hs he hgt
    simp [applyFilters, valueOrNull, hs, he, hgt]
  · intro h
    by_cases hs : s = ""
    · subst hs
      simp [applyFilters, valueOrNull]
    · by_cases he : e = ""
      · subst he
        simp [applyFilters, valueOrNull, hs]
      · have hgt : strGt s e = false := by
          rcases Bool.eq_false_or_eq_true (strGt s e) with h2 | h2
          · exact absurd ⟨hs, he, h2⟩ h
          · exact h2
        simp [applyFilters, valueOrNull, hs, he, hgt]

/-- Witness for C2 at concrete inputs: "2024-05-02" > "2024-05-01" is
rejected without touching the state, and the reversed pair is stored
with a refresh. -/
theorem applyFilters_validation_witness :
    applyFilters ⟨none, none⟩ "2024-05-02" "2024-05-01" =
      ⟨⟨none, none⟩, false, true⟩ ∧
    applyFilters ⟨none, none⟩ "2024-05-01" "2024-05-02" =
      ⟨⟨some "2024-05-01", some "2024-05-02"⟩, true, false⟩ :=
  ⟨(applyFilters_validation ⟨none, none⟩ "2024-05-02" "2024-05-01").1
      (by decide) (by decide) (by decide),
   (applyFilters_validation ⟨none, none⟩ "2024-05-01" "2024-05-02").2
      (by decide)⟩

/-- C3: for every applied filter whose dates parse, the derived query
carries `start_date` as the start instant normalized to local
00:00:00.000 of its local day, and `end_date` normalized to local
23:59:59.999 of its local day (so the end date covers its whole
day). -/
theorem buildFilterQuery_normalizes (tz : Int) (f : DashboardFilters)
    (s e : String) (ts te : Int) :
    (f.start = some s → parseJSDate s = some ts →
      ("start_date", QueryVal.iso (setHoursStartOfDay tz ts)) ∈
          buildFilterQuery tz f ∧
        localMsOfDay tz (setHoursStartOfDay tz ts) = 0 ∧
        localDayIndex tz (setHoursStartOfDay tz ts) = localDayIndex tz ts) ∧
    (f.end_ = some e → parseJSDate e = some te →
      ("end_date", QueryVal.iso (setHoursEndOfDay tz te)) ∈
          buildFilterQuery tz f ∧
        localMsOfDay tz (setHoursEndOfDay tz te) = msPerDay - 1 ∧
        localDayIndex tz (setHoursEndOfDay tz te) = localDayIndex tz te) := by
  constructor
  · intro hf hp
    have hne := parseJSDate_ne_empty hp
    refine ⟨?_, ?_, ?_⟩
    · have hmem : ("start_date", QueryVal.iso (setHoursStartOfDay tz ts)) ∈
          [("start_date", formatDateForQuery tz (f.start.getD "") false)] := by
        simp [hf, formatDateForQuery, hne, hp]
      unfold buildFilterQuery
      rw [List.mem_append]
      left
      simpa [truthyOpt, hf, hne] using hmem
    · exact localMs_setHoursStart tz ts
    · exact dayIndex_setHoursStart tz ts
  · intro hf hp
    have hne := parseJSDate_ne_empty hp
    refine ⟨?_, ?_, ?_⟩
    · have hmem : ("end_date", QueryVal.iso (setHoursEndOfDay tz te)) ∈
          [("end_date", formatDateForQuery tz (f.end_.getD "") true)] := by
        simp [hf, formatDateForQuery, hne, hp]
      unfold buildFilterQuery
      rw [List.mem_append]
      right
      simpa [truthyOpt, hf, hne] using hmem
    · exact localMs_setHoursEnd tz te
    · exact dayIndex_setHoursEnd tz te

/-- Witness for C3 with tz = UTC and the filter
2024-01-15 .. 2024-01-20. -/
theorem buildFilterQuery_normalizes_witness :
    ("start_date", QueryVal.iso (setHoursStartOfDay 0 1705276800000)) ∈
        buildFilterQuery 0 ⟨some "2024-01-15", some "2024-01-20"⟩ ∧
      localMsOfDay 0 (setHoursStartOfDay 0 1705276800000) = 0 ∧
    ("end_date", QueryVal.iso (setHoursEndOfDay 0 1705708800000)) ∈
        buildFilterQuery 0 ⟨some "2024-01-15", some "2024-01-20"⟩ ∧
      localMsOfDay 0 (setHoursEndOfDay 0 1705708800000) = msPerDay - 1 := by
  have h := buildFilterQuery_normalizes 0
    ⟨some "2024-01-15", some "2024-01-20"⟩ "2024-01-15" "2024-01-20"
    1705276800000 1705708800000
  have h1 := h.1 rfl (by decide)
  have h2 := h.2 rfl (by decide)
  exact ⟨h1.1, h1.2.1, h2.1, h2.2.1⟩

/-- C10: a non-empty string that does not parse as a date is returned
unchanged by the query conversion and serialized verbatim into the
`start_date` / `end_date` parameter. -/
theorem formatDateForQuery_verbatim (tz : Int) (s : String) (b : Bool)
    (hne : s ≠ "") (hp : parseJSDate s = none) :
    formatDateForQuery tz s b = .raw s ∧
    (∀ f : DashboardFilters, f.start = some s →
      ("start_date", QueryVal.raw s) ∈ buildFilterQuery tz f) ∧
    (∀ f : DashboardFilters, f.end_ = some s →
      ("end_date", QueryVal.raw s) ∈ buildFilterQuery tz f) := by
  refine ⟨by simp [formatDateForQuery, hne, hp], ?_, ?_⟩
  · intro f hf
    unfold buildFilterQuery
    rw [List.mem_append]
    left
    simp [truthyOpt, hf, hne, formatDateForQuery, hp]
  · intro f hf
    unfold buildFilterQuery
    rw [List.mem_append]
    right
    simp [truthyOpt, hf, hne, formatDateForQuery, hp]

/-- Witness for C10 at the unparseable input "hello". -/
theorem formatDateForQuery_verbatim_witness :
    formatDateForQuery 0 "hello" false = .raw "hello" ∧
    ("start_date", QueryVal.raw "hello") ∈
      buildFilterQuery 0 ⟨some "hello", none⟩ := by
  have h := formatDateForQuery_verbatim 0 "hello" false (by decide) (by decide)
  exact ⟨h.1, h.2.1 ⟨some "hello", none⟩ rfl⟩

lemma add_num_num (a b : ℚ) (h1 : ¬ doubleOverflow ≤ a + b)
    (h2 : ¬ a + b ≤ -doubleOverflow) :
    JSNum.add (.num a) (.num b) = .num (a + b) := by
  simp [JSNum.add, h1, h2]

lemma add_nonfinite_left {a : JSNum} (h : a.isFinite = false)
    (b : JSNum) : (a.add b).isFinite = false := by
  cases a <;> cases b <;>
    simp_all [JSNum.add, JSNum.isFinite]

lemma add_inf_right (a : JSNum) : (a.add .inf).isFinite = false := by
  cases a <;> simp [JSNum.add, JSNum.isFinite]

lemma foldl_add_nonfinite (items : List (Option JSNum)) :
    ∀ a : JSNum, a.isFinite = false →
      (items.foldl (fun total v => JSNum.add total (jsValueOr0 v))
          a).isFinite = false := by
  induction items with
  | nil => intro a ha; simpa using ha
  | cons v t ih =>
      intro a ha
      exact ih _ (add_nonfinite_left ha _)

lemma jsValueOr0_num {v : Option JSNum} {w : ℚ}
    (h : jsValueOr0 v = .num w) : presentValueRat v = w := by
  rcases v with _ | j
  · simp [jsValueOr0] at h
    simp [presentValueRat, ← h]
  · cases j <;> simp_all [jsValueOr0, presentValueRat]

lemma foldl_finite_sum (items : List (Option JSNum)) :
    ∀ acc s : ℚ,
      items.foldl (fun total v => JSNum.add total (jsValueOr0 v))
          (JSNum.num acc) = JSNum.num s →
      s = acc + presentSum items := by
  induction items with
  | nil =>
      intro acc s h
      simp only [List.foldl_nil, JSNum.num.injEq] at h
      simp [presentSum, ← h]
  | cons v t ih =>
      intro acc s h
      simp only [List.foldl_cons] at h
      rcases hv : jsValueOr0 v with _ | _ | _ | w
      all_goals rw [hv] at h
      · exact absurd h (by
          have := foldl_add_nonfinite t ((JSNum.num acc).add .nan) rfl
          intro he
          rw [he] at this
          simp [JSNum.isFinite] at this)
      · exact absurd h (by
          have := foldl_add_nonfinite t ((JSNum.num acc).add .inf)
            (add_inf_right _)
          intro he
          rw [he] at this
          simp [JSNum.isFinite] at this)
      · exact absurd h (by
          have := foldl_add_nonfinite t ((JSNum.num acc).add .negInf) rfl
          intro he
          rw [he] at this
          simp [JSNum.isFinite] at this)
      · by_cases h1 : doubleOverflow ≤ acc + w
        · rw [show (JSNum.num acc).add (.num w) = .inf by
            simp [JSNum.add, h1]] at h
          exact absurd h (by
            have := foldl_add_nonfinite t .inf rfl
            intro he
            rw [he] at this
            simp [JSNum.isFinite] at this)
        · by_cases h2 : acc + w ≤ -doubleOverflow
          · rw [show (JSNum.num acc).add (.num w) = .negInf by
              simp [JSNum.add, h1, h2]] at h
            exact absurd h (by
              have := foldl_add_nonfinite t .negInf rfl
              intro he
              rw [he] at this
              simp [JSNum.isFinite] at this)
          · rw [show (JSNum.num acc).add (.num w) = .num (acc + w) by
              simp [JSNum.add, h1, h2]] at h
            have hrec := ih (acc + w) s h
            have hp : presentSum (v :: t) = w + presentSum t := by
              simp [presentSum, jsValueOr0_num hv]
            rw [hrec, hp]
            ring

/-- C7 counterexample: a committed series can contain Infinity -- the
editor save keeps a row whose value text "1e999" overflows to
Infinity, and the chart renderer is then called with the committed
series -- and the average calculation on such a series returns
Infinity, not a finite number. -/
theorem calcAverage_infinity :
    calcAverage [some (parseFloat "1e999")] = JSNum.inf ∧
    (calcAverage [some (parseFloat "1e999")]).isFinite = false := by
  have hv : parseFloat "1e999" = JSNum.inf := by
    have h : parseFloat "1e999" = jsNumOfDecimal false 1 0 0 999 := by
      simp +decide [parseFloat, parseFloatCore, parseExponent, digitsToNat,
        digitVal]
    rw [h]
    simp only [jsNumOfDecimal, doubleOverflow]
    norm_num
  have hmain : calcAverage [some JSNum.inf] = JSNum.inf := by
    simp [calcAverage, jsSumValues, jsValueOr0, JSNum.add, JSNum.divNat,
      jsToFixed2Num]
  rw [hv]
  exact ⟨hmain, by rw [hmain]; rfl⟩

/-- C7 (amended): an empty series yields exactly the number 0 and no
division happens; for a non-empty series whose JS reduction of the
values yields a finite sum, the average is exactly the sum of the
present values divided by the entry count, rounded to two decimal
places, and is a finite number with at most two decimals; but a
series containing a present Infinity value (reachable by saving an
overflowing literal such as "1e999") yields a non-finite average, so
the result is not finite for every series the renderer can
receive. -/
theorem calcAverage_spec :
    calcAverage [] = JSNum.num 0 ∧
    (∀ items : List (Option JSNum), items ≠ [] → ∀ s : ℚ,
      jsSumValues items = .num s →
      calcAverage items =
          .num (jsToFixed2 (presentSum items / (items.length : ℚ))) ∧
        (calcAverage items).isFinite = true ∧
        ∃ n : ℤ,
          jsToFixed2 (presentSum items / (items.length : ℚ)) * 100 =
            (n : ℚ)) ∧
    (∀ items : List (Option JSNum), some JSNum.inf ∈ items →
      (calcAverage items).isFinite = false) := by
  refine ⟨rfl, ?_, ?_⟩
  · intro items hne s hsum
    have hlen : items.length ≠ 0 := fun h =>
      hne (List.length_eq_zero.mp h)
    have hs : s = presentSum items := by
      have := foldl_finite_sum items 0 s (by
        have h0 : jsSumValues items =
            items.foldl (fun total v => JSNum.add total (jsValueOr0 v))
              (JSNum.num 0) := rfl
        rw [← h0]
        exact hsum)
      simpa using this
    have hmain : calcAverage items =
        .num (jsToFixed2 (presentSum items / (items.length : ℚ))) := by
      unfold calcAverage
      rw [if_neg hlen, hsum]
      simp [JSNum.divNat, hlen, jsToFixed2Num, hs]
    refine ⟨hmain, by rw [hmain]; rfl, ?_⟩
    refine ⟨⌊presentSum items / (items.length : ℚ) * 100 + 1 / 2⌋, ?_⟩
    unfold jsToFixed2
    rw [div_mul_cancel₀]
    norm_num
  · intro items hmem
    obtain ⟨l1, l2, rfl⟩ := List.append_of_mem hmem
    have hlen : (l1 ++ some JSNum.inf :: l2).length ≠ 0 := by simp
    have hsum : (jsSumValues (l1 ++ some JSNum.inf :: l2)).isFinite =
        false := by
      unfold jsSumValues
      rw [List.foldl_append, List.foldl_cons]
      exact foldl_add_nonfinite l2 _
        (by
          rw [show jsValueOr0 (some JSNum.inf) = .inf from rfl]
          exact add_inf_right _)
    unfold calcAverage
    rw [if_neg hlen]
    rcases hS : jsSumValues (l1 ++ some JSNum.inf :: l2) with _ | _ | _ | q
    · rfl
    · rfl
    · rfl
    · rw [hS] at hsum
      simp [JSNum.isFinite] at hsum

/-- Witness for C7 (amended): a finite three-entry series averages to
a finite two-decimal value, and a one-entry Infinity series averages
to a non-finite value. -/
theorem calcAverage_spec_witness :
    (calcAverage [some (JSNum.num 3), some (JSNum.num 4), none]).isFinite =
      true ∧
    (calcAverage [some JSNum.inf]).isFinite = false := by
  have hsum : jsSumValues [some (JSNum.num 3), some (JSNum.num 4), none] =
      .num 7 := by
    rw [show jsSumValues [some (JSNum.num 3), some (JSNum.num 4), none] =
        (((JSNum.num 0).add (.num 3)).add (.num 4)).add (.num 0) from rfl]
    rw [add_num_num 0 3 (by norm_num [doubleOverflow])
        (by norm_num [doubleOverflow]),
      add_num_num (0 + 3) 4 (by norm_num [doubleOverflow])
        (by norm_num [doubleOverflow]),
      add_num_num (0 + 3 + 4) 0 (by norm_num [doubleOverflow])
        (by norm_num [doubleOverflow])]
    norm_num
  exact ⟨(calcAverage_spec.2.1 _ (by simp) 7 hsum).2.1,
    calcAverage_spec.2.2 _ (by simp)⟩

/-- C5: the ease save commits the submitted pair exactly on a success
envelope (chart re-rendered with it, editor closed), and on a failure
envelope or a thrown request error leaves the committed series
untouched, surfaces a failure message, and keeps the editor open; the
editor closes only on success. -/
theorem saveEaseData_commit (buf : EaseBuffer) (cur : EaseSeries)
    (resp : SaveResp) :
    (saveEaseData buf cur resp).submitted =
      ⟨collectSeries buf.odoo, collectSeries buf.nasma⟩ ∧
    (∀ e, resp = .envelope true e →
      (saveEaseData buf cur resp).easeData =
          (saveEaseData buf cur resp).submitted ∧
        (saveEaseData buf cur resp).rendered =
          some (saveEaseData buf cur resp).submitted ∧
        (saveEaseData buf cur resp).editorOpen = false) ∧
    (∀ e, resp = .envelope false e →
      (saveEaseData buf cur resp).easeData = cur ∧
        (saveEaseData buf cur resp).rendered = none ∧
        (saveEaseData buf cur resp).editorOpen = true ∧
        (saveEaseData buf cur resp).message =
          "Failed to save ease comparison data: " ++ e) ∧
    (resp = .thrown →
      (saveEaseData buf cur resp).easeData = cur ∧
        (saveEaseData buf cur resp).rendered = none ∧
        (saveEaseData buf cur resp).editorOpen = true ∧
        (saveEaseData buf cur resp).message =
          "Error saving ease comparison data") ∧
    ((saveEaseData buf cur resp).editorOpen = false ↔
      ∃ e, resp = .envelope true e) := by
  refine ⟨?_, ?_, ?_, ?_, ?_⟩
  · cases resp with
    | thrown => rfl
    | envelope success error => cases success <;> rfl
  · rintro e rfl
    exact ⟨rfl, rfl, rfl⟩
  · rintro e rfl
    exact ⟨rfl, rfl, rfl, rfl⟩
  · rintro rfl
    exact ⟨rfl, rfl, rfl, rfl⟩
  · cases resp with
    | thrown => simp [saveEaseData]
    | envelope success error =>
        cases success <;> simp [saveEaseData]

/-- Witness for C5: a concrete one-row buffer saved against a failure
envelope leaves the committed series untouched with the editor open,
and against a success envelope commits exactly the submitted pair and
closes the editor. -/
theorem saveEaseData_commit_witness :
    (saveEaseData ⟨[⟨"W1", "5"⟩], []⟩ ⟨[⟨"old", .num 1⟩], []⟩
        (.envelope false "boom")).easeData = ⟨[⟨"old", .num 1⟩], []⟩ ∧
    (saveEaseData ⟨[⟨"W1", "5"⟩], []⟩ ⟨[⟨"old", .num 1⟩], []⟩
        (.envelope false "boom")).editorOpen = true ∧
    (saveEaseData ⟨[⟨"W1", "5"⟩], []⟩ ⟨[⟨"old", .num 1⟩], []⟩
        (.envelope true "")).easeData =
      (saveEaseData ⟨[⟨"W1", "5"⟩], []⟩ ⟨[⟨"old", .num 1⟩], []⟩
        (.envelope true "")).submitted ∧
    (saveEaseData ⟨[⟨"W1", "5"⟩], []⟩ ⟨[⟨"old", .num 1⟩], []⟩
        (.envelope true "")).editorOpen = false := by
  have hf := (saveEaseData_commit ⟨[⟨"W1", "5"⟩], []⟩
    ⟨[⟨"old", .num 1⟩], []⟩ (.envelope false "boom")).2.2.1 "boom" rfl
  have hs := (saveEaseData_commit ⟨[⟨"W1", "5"⟩], []⟩
    ⟨[⟨"old", .num 1⟩], []⟩ (.envelope true "")).2.1 "" rfl
  exact ⟨hf.1, hf.2.2.1, hs.1, hs.2.2⟩

lemma collectSeries_foldl_aux (rows : List RowInput) :
    ∀ acc : List EaseEntry,
      rows.foldl
        (fun acc r =>
          let v := parseFloat r.value
          if r.period ≠ "" ∧ ¬v.isNaN then acc ++ [⟨r.period, v⟩] else acc)
        acc = acc ++ submittedRows rows := by
  induction rows with
  | nil => intro acc; simp [submittedRows]
  | cons r t ih =>
      intro acc
      by_cases hk : r.period ≠ "" ∧ ¬(parseFloat r.value).isNaN
      · simp only [List.foldl_cons, if_pos hk, ih, submittedRows,
          List.filter_cons]
        rw [if_pos (by simpa using hk)]
        simp [submittedRows]
      · simp only [List.foldl_cons, if_neg hk, ih, submittedRows,
          List.filter_cons]
        rw [if_neg (by simpa using hk)]

lemma collectSeries_eq_submittedRows (rows : List RowInput) :
    collectSeries rows = submittedRows rows := by
  unfold collectSeries
  rw [collectSeries_foldl_aux rows []]
  simp

/-- C6 counterexample: the value text "1e999" parses to positive
Infinity (not `NaN`, and not a finite number), yet the save keeps the
row, so a saved row's value does not always parse as a finite number
as the claim states. -/
theorem collectSeries_keeps_nonfinite :
    parseFloat "1e999" = JSNum.inf ∧
    collectSeries [⟨"W1", "1e999"⟩] = [⟨"W1", JSNum.inf⟩] ∧
    JSNum.inf.isFinite = false := by
  have h : parseFloat "1e999" = jsNumOfDecimal false 1 0 0 999 := by
    simp +decide [parseFloat, parseFloatCore, parseExponent, digitsToNat,
      digitVal]
  have hv : parseFloat "1e999" = JSNum.inf := by
    rw [h]
    simp only [jsNumOfDecimal, doubleOverflow]
    norm_num
  refine ⟨hv, ?_, rfl⟩
  simp [collectSeries, hv, JSNum.isNaN]

/-- C6 (amended): saving submits, per series, exactly those rows whose
period text is non-empty and whose value text parses to a number other
than `NaN` (an overflowing literal such as "1e999" parses to Infinity
and is kept, so "parses as a number" rather than "parses as a finite
number"), in one write carrying both filtered series; a buffer with
one empty-period row, one unparseable-value row and one valid row
submits exactly the valid row. -/
theorem saveEaseData_row_filter (buf : EaseBuffer) (cur : EaseSeries)
    (resp : SaveResp) :
    (saveEaseData buf cur resp).submitted =
      ⟨submittedRows buf.odoo, submittedRows buf.nasma⟩ ∧
    collectSeries [⟨"", "5"⟩, ⟨"W2", "abc"⟩, ⟨"W3", "7.5"⟩] =
      [⟨"W3", JSNum.num (15 / 2)⟩] := by
  constructor
  · have hsub : (saveEaseData buf cur resp).submitted =
        ⟨collectSeries buf.odoo, collectSeries buf.nasma⟩ := by
      cases resp with
      | thrown => rfl
      | envelope success error => cases success <;> rfl
    rw [hsub, collectSeries_eq_submittedRows, collectSeries_eq_submittedRows]
  · have habc : parseFloat "abc" = JSNum.nan := by
      simp +decide [parseFloat, parseFloatCore]
    have h75 : parseFloat "7.5" = JSNum.num (15 / 2) := by
      have h : parseFloat "7.5" = jsNumOfDecimal false 7 5 1 0 := by
        simp +decide [parseFloat, parseFloatCore, parseExponent, digitsToNat,
          digitVal]
      rw [h]
      simp only [jsNumOfDecimal, doubleOverflow]
      norm_num
    simp [collectSeries, habc, h75, JSNum.isNaN]

lemma mem_slotOrder (s : Slot) : s ∈ slotOrder := by
  cases s <;> simp [slotOrder]

lemma stepEffects_fst {f : Slot → Resp} {s : Slot} {x : Slot × RenderInput}
    (hx : x ∈ stepEffects f s) : x.1 = s := by
  unfold stepEffects at hx
  rcases h : f s with _ | ⟨success, d⟩ <;> rw [h] at hx
  · simp at hx
  · cases success
    · by_cases hfb : hasEmptyFallback s = true <;> simp [hfb] at hx <;>
        simp [hx]
    · simp at hx
      simp [hx]

lemma mem_runCycleAux {f : Slot → Resp} (l : List Slot)
    (hnt : ∀ s ∈ l, f s ≠ .thrown) (x : Slot × RenderInput) :
    x ∈ runCycleAux f l ↔ ∃ s ∈ l, x ∈ stepEffects f s := by
  induction l with
  | nil => simp [runCycleAux]
  | cons s t ih =>
      have hs := hnt s (by simp)
      have ht : ∀ u ∈ t, f u ≠ .thrown := fun u hu => hnt u (by simp [hu])
      rcases h : f s with _ | ⟨success, d⟩
      · exact absurd h hs
      · unfold runCycleAux
        rw [h]
        simp only [List.mem_append, ih ht, List.mem_cons]
        constructor
        · rintro (hx | ⟨u, hu, hxu⟩)
          · exact ⟨s, Or.inl rfl, hx⟩
          · exact ⟨u, Or.inr hu, hxu⟩
        · rintro ⟨u, (rfl | hu), hxu⟩
          · exact Or.inl hxu
          · exact Or.inr ⟨u, hu, hxu⟩

/-- C1 counterexample: with a failure envelope on the active-users
endpoint and successes everywhere else, the refresh cycle never calls
the active-users renderer at all (in particular not with empty input);
the claim requires it to be called with empty input. -/
theorem loadDashboardData_failure_cex :
    runCycle (fun s =>
      match s with
      | .activeUsers => .envelope false 0
      | _ => .envelope true 1) =
      [(Slot.requests, .data 1), (Slot.adoption, .data 1),
       (Slot.adoptionByDept, .data 1), (Slot.logHours, .data 1),
       (Slot.requestDurations, .data 1), (Slot.successRates, .data 1),
       (Slot.inactiveEmployees, .data 1), (Slot.activitiesToday, .data 1),
       (Slot.satisfaction, .data 1), (Slot.easeComparison, .data 1)] := by
  decide

/-- C1 (amended): when no endpoint throws, the failure of one metric
never prevents another metric from rendering its data, but a failure
envelope routes empty input to the metric's renderer only for the six
table endpoints -- the chart and single-value endpoints get no
renderer call at all; and a thrown transport error aborts the whole
sequential cycle, so only the endpoints before it render
(here: requests thrown leaves only the active-users call). -/
theorem loadDashboardData_partial_failure :
    (∀ f : Slot → Resp, (∀ s, f s ≠ .thrown) →
      (∀ s d, f s = .envelope true d →
        (s, RenderInput.data d) ∈ runCycle f ∧
          (s, RenderInput.empty) ∉ runCycle f) ∧
      (∀ s d, f s = .envelope false d →
        ((s, RenderInput.empty) ∈ runCycle f ↔ hasEmptyFallback s = true) ∧
          ∀ d2, (s, RenderInput.data d2) ∉ runCycle f)) ∧
    (∀ f : Slot → Resp, f .requests = .thrown →
      runCycle f = runCycleAux f [Slot.activeUsers]) := by
  constructor
  · intro f hnt
    have hmem := fun x =>
      mem_runCycleAux slotOrder (fun s _ => hnt s) x
    constructor
    · intro s d hs
      constructor
      · exact (hmem _).2 ⟨s, mem_slotOrder s, by simp [stepEffects, hs]⟩
      · intro hc
        rcases (hmem _).1 hc with ⟨u, _, hxu⟩
        have := stepEffects_fst hxu
        subst this
        rw [stepEffects, hs] at hxu
        simp at hxu
    · intro s d hs
      constructor
      · constructor
        · intro hc
          rcases (hmem _).1 hc with ⟨u, _, hxu⟩
          have := stepEffects_fst hxu
          subst this
          rw [stepEffects, hs] at hxu
          by_cases hfb : hasEmptyFallback s = true
          · exact hfb
          · simp [hfb] at hxu
        · intro hfb
          exact (hmem _).2 ⟨s, mem_slotOrder s, by simp [stepEffects, hs, hfb]⟩
      · intro d2 hc
        rcases (hmem _).1 hc with ⟨u, _, hxu⟩
        have := stepEffects_fst hxu
        subst this
        rw [stepEffects, hs] at hxu
        by_cases hfb : hasEmptyFallback s = true <;> simp [hfb] at hxu
  · intro f hreq
    show runCycleAux f slotOrder = runCycleAux f [Slot.activeUsers]
    rcases h : f Slot.activeUsers with _ | ⟨success, d⟩ <;>
      simp [slotOrder, runCycleAux, h, hreq]

/-- Witness for C1 (amended) at a concrete response assignment: a
failure envelope on log-hours yields an empty-input render for
log-hours, no render for a failing active-users endpoint, and data
renders for succeeding endpoints. -/
theorem loadDashboardData_partial_failure_witness :
    (Slot.logHours, RenderInput.empty) ∈
      runCycle (fun s =>
        match s with
        | .logHours => .envelope false 0
        | .activeUsers => .envelope false 0
        | _ => .envelope true 7) ∧
    (Slot.activeUsers, RenderInput.empty) ∉
      runCycle (fun s =>
        match s with
        | .logHours => .envelope false 0
        | .activeUsers => .envelope false 0
        | _ => .envelope true 7) ∧
    (Slot.requests, RenderInput.data 7) ∈
      runCycle (fun s =>
        match s with
        | .logHours => .envelope false 0
        | .activeUsers => .envelope false 0
        | _ => .envelope true 7) := by
  have h := loadDashboardData_partial_failure.1
    (fun s =>
      match s with
      | .logHours => .envelope false 0
      | .activeUsers => .envelope false 0
      | _ => .envelope true 7)
    (by intro s; cases s <;> simp)
  refine ⟨(h.2 Slot.logHours 0 rfl).1.2 rfl, ?_, (h.1 Slot.requests 7 rfl).1⟩
  intro hc
  have := (h.2 Slot.activeUsers 0 rfl).1.1 hc
  simp [hasEmptyFallback] at this

lemma mem_destroyIfPresent {l : List Nat} {o : Option Nat} {x : Nat}
    (hx : x ∈ destroyIfPresent l o) : x ∈ l := by
  cases o with
  | none => exact hx
  | some h => exact List.mem_of_mem_erase hx

lemma nodup_destroyIfPresent {l : List Nat} (hnd : l.Nodup)
    (o : Option Nat) : (destroyIfPresent l o).Nodup := by
  cases o with
  | none => exact hnd
  | some h => exact hnd.erase h

lemma not_mem_destroyIfPresent_self {l : List Nat} (hnd : l.Nodup)
    (h : Nat) : h ∉ destroyIfPresent l (some h) :=
  hnd.not_mem_erase

lemma renderActiveUsersChart_liveAU (reg : ChartRegistry)
    (data : List AURow) :
    liveAUHandles (renderActiveUsersChart reg data) = 1 := by
  simp [liveAUHandles, renderActiveUsersChart]

lemma renderActiveUsersChart_wf {reg : ChartRegistry}
    (hwf : RegistryWF reg) (data : List AURow) :
    RegistryWF (renderActiveUsersChart reg data) := by
  obtain ⟨hnd, hlt, hau, hpc⟩ := hwf
  refine ⟨?_, ?_, ?_, ?_⟩
  · simp only [renderActiveUsersChart]
    rw [List.nodup_append]
    refine ⟨nodup_destroyIfPresent hnd _, List.nodup_singleton _, ?_⟩
    intro x hx
    have := hlt x (mem_destroyIfPresent hx)
    simp only [List.mem_singleton]
    omega
  · intro h hh
    simp only [renderActiveUsersChart, List.mem_append,
      List.mem_singleton] at hh
    rcases hh with hh | hh
    · have := hlt h (mem_destroyIfPresent hh)
      simp only [renderActiveUsersChart]
      omega
    · simp only [renderActiveUsersChart, hh]
      omega
  · intro h hh
    simp only [renderActiveUsersChart, Option.some.injEq] at hh
    simp only [renderActiveUsersChart]
    omega
  · intro h hh
    simp only [renderActiveUsersChart] at hh
    have := hpc h hh
    simp only [renderActiveUsersChart]
    omega

/-- C4 counterexample: one successful planning-coverage render leaves
one live handle; a subsequent render with an empty dataset destroys it
and binds no replacement, leaving zero live handles for the slot (and
the slot variable still pointing at the destroyed instance) -- the
claim says a handle is never destroyed without a replacement except on
navigation away. -/
theorem renderPlanningCoverage_destroys_without_replacement :
    livePCHandles
        (renderPlanningCoverageChart ⟨[], none, none, 0⟩
          ⟨[⟨"2024-01", none⟩], []⟩ .monthly) = 1 ∧
    livePCHandles
        (renderPlanningCoverageChart
          (renderPlanningCoverageChart ⟨[], none, none, 0⟩
            ⟨[⟨"2024-01", none⟩], []⟩ .monthly)
          ⟨[], []⟩ .monthly) = 0 ∧
    (renderPlanningCoverageChart
        (renderPlanningCoverageChart ⟨[], none, none, 0⟩
          ⟨[⟨"2024-01", none⟩], []⟩ .monthly)
        ⟨[], []⟩ .monthly).planningCoverageChart = some 0 := by
  decide

/-- C4 (amended): every render of the active-users chart (the pattern
shared by the requests and ease charts) releases the prior live handle
for its slot and binds exactly one fresh one -- in particular two
renders in succession leave exactly one live handle.  The
planning-coverage render also releases the prior handle first, but
when the trimmed dataset of the selected view is empty it returns
without creating a replacement, leaving zero live handles for that
slot; with a non-empty trimmed dataset it leaves exactly one. -/
theorem chartRegistry_one_live_handle :
    (∀ (reg : ChartRegistry) (d d2 : List AURow),
      liveAUHandles
        (renderActiveUsersChart (renderActiveUsersChart reg d) d2) = 1) ∧
    (∀ (reg : ChartRegistry) (d : List AURow), RegistryWF reg →
      liveAUHandles (renderActiveUsersChart reg d) = 1 ∧
      (∀ h, reg.activeUsersChart = some h →
        h ∉ (renderActiveUsersChart reg d).live) ∧
      RegistryWF (renderActiveUsersChart reg d)) ∧
    (∀ (reg : ChartRegistry) (pcd : PlanningCoverageData)
        (view : CoverageView), RegistryWF reg →
      trimmedCoverage pcd view = [] →
      livePCHandles (renderPlanningCoverageChart reg pcd view) = 0 ∧
      (∀ h, reg.planningCoverageChart = some h →
        h ∉ (renderPlanningCoverageChart reg pcd view).live)) ∧
    (∀ (reg : ChartRegistry) (pcd : PlanningCoverageData)
        (view : CoverageView), RegistryWF reg →
      trimmedCoverage pcd view ≠ [] →
      livePCHandles (renderPlanningCoverageChart reg pcd view) = 1 ∧
      (∀ h, reg.planningCoverageChart = some h →
        h ∉ (renderPlanningCoverageChart reg pcd view).live)) := by
  refine ⟨?_, ?_, ?_, ?_⟩
  · intro reg d d2
    exact renderActiveUsersChart_liveAU _ d2
  · intro reg d hwf
    refine ⟨renderActiveUsersChart_liveAU reg d, ?_,
      renderActiveUsersChart_wf hwf d⟩
    intro h hh
    obtain ⟨hnd, hlt, hau, hpc⟩ := hwf
    simp only [renderActiveUsersChart, hh, List.mem_append,
      List.mem_singleton]
    push_neg
    refine ⟨not_mem_destroyIfPresent_self hnd h, ?_⟩
    have := hau h hh
    omega
  · intro reg pcd view hwf hempty
    obtain ⟨hnd, hlt, hau, hpc⟩ := hwf
    have hbody : renderPlanningCoverageChart reg pcd view =
        { live := destroyIfPresent reg.live reg.planningCoverageChart,
          activeUsersChart := reg.activeUsersChart,
          planningCoverageChart := reg.planningCoverageChart,
          nextId := reg.nextId } := by
      simp [renderPlanningCoverageChart, hempty]
    constructor
    · rw [hbody]
      rcases h : reg.planningCoverageChart with _ | hh
      · simp [livePCHandles]
      · simp only [livePCHandles, h]
        rw [if_neg (not_mem_destroyIfPresent_self hnd hh)]
    · intro h hh
      rw [hbody]
      simp only [hh]
      exact not_mem_destroyIfPresent_self hnd h
  · intro reg pcd view hwf hne
    obtain ⟨hnd, hlt, hau, hpc⟩ := hwf
    have hbody : renderPlanningCoverageChart reg pcd view =
        { live := destroyIfPresent reg.live reg.planningCoverageChart ++
            [reg.nextId],
          activeUsersChart := reg.activeUsersChart,
          planningCoverageChart := some reg.nextId,
          nextId := reg.nextId + 1 } := by
      simp [renderPlanningCoverageChart,
        List.isEmpty_iff.not.mpr hne]
    constructor
    · rw [hbody]
      simp [livePCHandles]
    · intro h hh
      rw [hbody]
      simp only [hh, List.mem_append, List.mem_singleton]
      push_neg
      refine ⟨not_mem_destroyIfPresent_self hnd h, ?_⟩
      have := hpc h hh
      omega

/-- Witness for C4 (amended) at a concrete well-formed registry. -/
theorem chartRegistry_one_live_handle_witness :
    liveAUHandles
      (renderActiveUsersChart
        (renderActiveUsersChart ⟨[], none, none, 0⟩ []) []) = 1 ∧
    livePCHandles
      (renderPlanningCoverageChart ⟨[5], none, some 5, 6⟩
        ⟨[], []⟩ .monthly) = 0 ∧
    livePCHandles
      (renderPlanningCoverageChart ⟨[5], none, some 5, 6⟩
        ⟨[⟨"2024-01", none⟩], []⟩ .monthly) = 1 := by
  refine ⟨chartRegistry_one_live_handle.1 ⟨[], none, none, 0⟩ [] [], ?_, ?_⟩
  · exact (chartRegistry_one_live_handle.2.2.1 ⟨[5], none, some 5, 6⟩
      ⟨[], []⟩ .monthly
      ⟨by decide, by decide, by decide, by simp⟩ (by decide)).1
  · exact (chartRegistry_one_live_handle.2.2.2 ⟨[5], none, some 5, 6⟩
      ⟨[⟨"2024-01", none⟩], []⟩ .monthly
      ⟨by decide, by decide, by decide, by simp⟩ (by decide)).1

lemma toDigitsCore_length_succ (b : Nat) :
    ∀ (f n : Nat) (l : List Char),
      l.length + 1 ≤ (Nat.toDigitsCore b (f + 1) n l).length := by
  intro f
  induction f with
  | zero =>
      intro n l
      simp only [Nat.toDigitsCore]
      split <;> simp
  | succ f ih =>
      intro n l
      rw [show Nat.toDigitsCore b (f + 1 + 1) n l =
          (if n / b = 0 then Nat.digitChar (n % b) :: l
           else Nat.toDigitsCore b (f + 1) (n / b)
             (Nat.digitChar (n % b) :: l)) from rfl]
      split
      · simp
      · have h := ih (n / b) (Nat.digitChar (n % b) :: l)
        simp only [List.length_cons] at h
        omega

lemma one_le_length_toString (n : Nat) : 1 ≤ (toString n).length := by
  show 1 ≤ (Nat.repr n).length
  have h := toDigitsCore_length_succ 10 n n []
  simpa [Nat.repr, Nat.toDigits, List.asString, String.length] using h

lemma ne_dash_of_two_le {s : String} (h : 2 ≤ s.length) : s ≠ "-" := by
  intro he
  rw [he] at h
  exact absurd h (by decide)

lemma ne_empty_of_len {s : String} (h : 1 ≤ s.length) : s ≠ "" := by
  intro he
  rw [he] at h
  simp [String.length] at h

lemma append_unit_ne_empty (n : Nat) (u : String) (hu : 1 ≤ u.length) :
    toString n ++ u ≠ "" := by
  apply ne_empty_of_len
  rw [String.length_append]
  omega

lemma formatDurationDisplay_hours {q : ℚ} (hq : 0 < q)
    (h : 3600 ≤ (jsMathRound q).toNat) :
    formatDurationDisplay (some q) =
      toString ((jsMathRound q).toNat / 3600) ++ "h" ++
        (if (jsMathRound q).toNat % 3600 / 60 ≠ 0 then
          " " ++ toString ((jsMathRound q).toNat % 3600 / 60) ++ "m"
        else "") := by
  have hq0 : ¬ q ≤ 0 := not_le.mpr hq
  simp only [formatDurationDisplay, if_neg hq0]
  generalize hr : (jsMathRound q).toNat = r at h ⊢
  have hh : ¬ r / 3600 = 0 := by omega
  have hsec : ¬ (r / 3600 = 0 ∧ ¬ r % 60 = 0) := by omega
  by_cases hm : r % 3600 / 60 = 0
  · simp only [ne_eq, hh, not_false_eq_true, if_true, hm,
      not_true_eq_false, if_false, hsec, List.append_nil, joinParts]
    rw [if_neg (append_unit_ne_empty (r / 3600) "h" (by decide))]
    simp
  · simp only [ne_eq, hh, not_false_eq_true, if_true, hm, if_false,
      hsec, List.append_nil, List.singleton_append, joinParts]
    rw [if_neg ?hne]
    case hne =>
      apply ne_empty_of_len
      simp only [String.length_append]
      have := one_le_length_toString (r / 3600)
      omega
    simp only [← String.append_assoc]

lemma formatDurationDisplay_subhour {q : ℚ} (hq : 0 < q)
    (hlt : (jsMathRound q).toNat < 3600) (hnz : (jsMathRound q).toNat ≠ 0) :
    formatDurationDisplay (some q) =
      (if (jsMathRound q).toNat / 60 ≠ 0 then
        toString ((jsMathRound q).toNat / 60) ++ "m" ++
          (if (jsMathRound q).toNat % 60 ≠ 0 then
            " " ++ toString ((jsMathRound q).toNat % 60) ++ "s"
          else "")
      else toString ((jsMathRound q).toNat % 60) ++ "s") := by
  have hq0 : ¬ q ≤ 0 := not_le.mpr hq
  simp only [formatDurationDisplay, if_neg hq0]
  generalize hr : (jsMathRound q).toNat = r at hlt hnz ⊢
  have hh : r / 3600 = 0 := by omega
  have hmod : r % 3600 = r := by omega
  by_cases hm : r / 60 = 0
  · have hs : r % 60 ≠ 0 := by omega
    simp only [ne_eq, hh, not_true_eq_false, if_false, hmod, hm,
      hs, not_false_eq_true, and_true, if_true, List.nil_append,
      joinParts]
    rw [if_neg (append_unit_ne_empty (r % 60) "s" (by decide))]
  · by_cases hs : r % 60 = 0
    · simp only [ne_eq, hh, not_true_eq_false, if_false, hmod, hm,
        not_false_eq_true, if_true, hs, and_true, not_true_eq_false,
        and_false, List.nil_append, List.append_nil, joinParts]
      rw [if_neg (append_unit_ne_empty (r / 60) "m" (by decide))]
      simp
    · simp only [ne_eq, hh, not_true_eq_false, if_false, hmod, hm,
        not_false_eq_true, if_true, hs, and_true, List.nil_append,
        List.singleton_append, joinParts]
      rw [if_neg ?hne2]
      case hne2 =>
        apply ne_empty_of_len
        simp only [String.length_append]
        have := one_le_length_toString (r / 60)
        omega
      simp only [← String.append_assoc]

lemma formatDurationDisplay_round_zero {q : ℚ} (hq : 0 < q)
    (hz : (jsMathRound q).toNat = 0) :
    formatDurationDisplay (some q) = "0s" := by
  have hq0 : ¬ q ≤ 0 := not_le.mpr hq
  simp only [formatDurationDisplay, if_neg hq0, hz]
  decide

/-- C8 counterexample: a 90-second duration renders with a seconds
component ("1m 30s") although 90 seconds is not under one minute, so
the seconds suffix is not shown "only when the duration is under one
minute". -/
theorem formatDurationDisplay_90s :
    formatDurationDisplay (some 90) = "1m 30s" ∧ ¬((90 : ℚ) < 60) := by
  constructor
  · rw [formatDurationDisplay_subhour (by norm_num)
      (by norm_num [jsMathRound]) (by norm_num [jsMathRound])]
    rw [show jsMathRound 90 = 90 by norm_num [jsMathRound]]
    decide
  · norm_num

/-- C8 (amended): a `null`/absent or non-positive duration renders as
the single placeholder dash (never "0h 0m" and never a thrown error --
the formatter is a total function), and a positive duration with
rounded value `r` renders as "{h}h {m}m"-style text in which a seconds
component appears only when `r` is under one *hour* (not one minute):
at least an hour gives "{h}h" or "{h}h {m}m" with no seconds, under an
hour gives "{m}m" / "{m}m {s}s" / "{s}s", and a value rounding to zero
gives the "0s" fallback; in particular 3661 renders "1h 1m", 45
renders "45s", 3600 renders "1h", and 90 renders "1m 30s". -/
theorem formatDurationDisplay_spec :
    formatDurationDisplay none = "-" ∧
    (∀ q : ℚ, q ≤ 0 → formatDurationDisplay (some q) = "-") ∧
    formatDurationDisplay (some 3661) = "1h 1m" ∧
    formatDurationDisplay (some 45) = "45s" ∧
    formatDurationDisplay (some 3600) = "1h" ∧
    formatDurationDisplay (some 90) = "1m 30s" ∧
    (∀ q : ℚ, 0 < q →
      formatDurationDisplay (some q) ≠ "-" ∧
      (3600 ≤ (jsMathRound q).toNat →
        formatDurationDisplay (some q) =
          toString ((jsMathRound q).toNat / 3600) ++ "h" ++
            (if (jsMathRound q).toNat % 3600 / 60 ≠ 0 then
              " " ++ toString ((jsMathRound q).toNat % 3600 / 60) ++ "m"
            else "")) ∧
      ((jsMathRound q).toNat < 3600 → (jsMathRound q).toNat ≠ 0 →
        formatDurationDisplay (some q) =
          (if (jsMathRound q).toNat / 60 ≠ 0 then
            toString ((jsMathRound q).toNat / 60) ++ "m" ++
              (if (jsMathRound q).toNat % 60 ≠ 0 then
                " " ++ toString ((jsMathRound q).toNat % 60) ++ "s"
              else "")
          else toString ((jsMathRound q).toNat % 60) ++ "s")) ∧
      ((jsMathRound q).toNat = 0 →
        formatDurationDisplay (some q) = "0s")) := by
  refine ⟨rfl, ?_, ?_, ?_, ?_, ?_, ?_⟩
  · intro q hq
    simp [formatDurationDisplay, hq]
  · rw [formatDurationDisplay_hours (by norm_num)
      (by norm_num [jsMathRound]),
      show jsMathRound 3661 = 3661 by norm_num [jsMathRound]]
    decide
  · rw [formatDurationDisplay_subhour (by norm_num)
      (by norm_num [jsMathRound]) (by norm_num [jsMathRound]),
      show jsMathRound 45 = 45 by norm_num [jsMathRound]]
    decide
  · rw [formatDurationDisplay_hours (by norm_num)
      (by norm_num [jsMathRound]),
      show jsMathRound 3600 = 3600 by norm_num [jsMathRound]]
    decide
  · exact formatDurationDisplay_90s.1
  · intro q hq
    refine ⟨?_, fun h => formatDurationDisplay_hours hq h,
      fun h1 h2 => formatDurationDisplay_subhour hq h1 h2,
      fun h => formatDurationDisplay_round_zero hq h⟩
    have hh1 : ("h" : String).length = 1 := rfl
    have hm1 : ("m" : String).length = 1 := rfl
    have hs1 : ("s" : String).length = 1 := rfl
    have hsp : (" " : String).length = 1 := rfl
    have hnul : ("" : String).length = 0 := rfl
    rcases Nat.lt_or_ge (jsMathRound q).toNat 3600 with hlt | hge
    · rcases Nat.eq_zero_or_pos (jsMathRound q).toNat with hz | hpos
      · rw [formatDurationDisplay_round_zero hq hz]
        decide
      · rw [formatDurationDisplay_subhour hq hlt (by omega)]
        have h1 := one_le_length_toString ((jsMathRound q).toNat / 60)
        have h2 := one_le_length_toString ((jsMathRound q).toNat % 60)
        apply ne_dash_of_two_le
        split
        · split <;> (try simp only [String.length_append]) <;> omega
        · simp only [String.length_append]
          omega
    · rw [formatDurationDisplay_hours hq hge]
      have h1 := one_le_length_toString ((jsMathRound q).toNat / 3600)
      have h2 := one_le_length_toString ((jsMathRound q).toNat % 3600 / 60)
      apply ne_dash_of_two_le
      simp only [String.length_append]
      split <;> (try simp only [String.length_append]) <;> omega

/-- Witness for C8 (amended) at concrete durations. -/
theorem formatDurationDisplay_spec_witness :
    formatDurationDisplay (some (-5 : ℚ)) = "-" ∧
    formatDurationDisplay (some 7200) = "2h" ∧
    formatDurationDisplay (some 7200) ≠ "-" := by
  refine ⟨formatDurationDisplay_spec.2.1 (-5) (by norm_num), ?_, ?_⟩
  · rw [(formatDurationDisplay_spec.2.2.2.2.2.2 7200 (by norm_num)).2.1
      (by norm_num [jsMathRound]),
      show jsMathRound 7200 = 7200 by norm_num [jsMathRound]]
    decide
  · exact (formatDurationDisplay_spec.2.2.2.2.2.2 7200 (by norm_num)).1

/-- C9: for every period string of the form "YYYY-Wnn", the week label
is the date computed by the standard ISO-8601 anchoring on January 4:
it equals the Monday obtained from the January-4 anchor advanced by
`week - 1` weeks, it is always a Monday (ISO weekday 1), for week 1 it
is the Monday of the week containing January 4, and in particular
"2024-W01" resolves to Monday 2024-01-01. -/
theorem formatWeekLabel_iso :
    (∀ (s : String) (y w : Nat), parseWeekPeriod s = some (y, w) →
      formatWeekLabel s = .date (isoWeekMondaySpec (y : Int) (w : Int)) ∧
      isoWeekday (isoWeekMondaySpec (y : Int) (w : Int)) = 1 ∧
      (w = 1 →
        isoWeekMondaySpec (y : Int) 1 ≤ daysFromCivil (y : Int) 1 4 ∧
        daysFromCivil (y : Int) 1 4 < isoWeekMondaySpec (y : Int) 1 + 7)) ∧
    formatWeekLabel "2024-W01" = .date (daysFromCivil 2024 1 1) := by
  constructor
  · intro s y w hp
    refine ⟨?_, ?_, ?_⟩
    · simp only [formatWeekLabel, hp]
      congr 1
      simp only [isoWeekMondaySpec, isoWeekday, getUTCDay]
      by_cases h0 : ((daysFromCivil (y : Int) 1 4 + 4) % 7).toNat = 0
      · rw [if_pos h0]
        omega
      · rw [if_neg h0]
        omega
    · simp only [isoWeekMondaySpec, isoWeekday]
      have hX : daysFromCivil (y : Int) 1 4 -
            ((daysFromCivil (y : Int) 1 4 + 3) % 7 + 1 - 1) +
            7 * ((w : Int) - 1) + 3 =
          7 * ((daysFromCivil (y : Int) 1 4 + 3) / 7 + (w : Int) - 1) := by
        omega
      rw [hX, Int.mul_emod_right]
      norm_num
    · intro hw
      subst hw
      simp only [isoWeekMondaySpec, isoWeekday]
      constructor <;> omega
  · decide

/-- Witness for C9 at the concrete period "2024-W01". -/
theorem formatWeekLabel_iso_witness :
    formatWeekLabel "2024-W01" =
      .date (isoWeekMondaySpec ((2024 : Nat) : Int) ((1 : Nat) : Int)) ∧
    isoWeekday (isoWeekMondaySpec ((2024 : Nat) : Int) ((1 : Nat) : Int)) = 1 := by
  have h := formatWeekLabel_iso.1 "2024-W01" 2024 1 (by decide)
  exact ⟨h.1, h.2.1⟩

end Dashboard
